import Mathlib

/-!
# Verification of the RLBotChoreography orchestration core

A shallow embedding, in Lean 4, of the parts of the RLBotChoreography
repository that the specification's claims are about:

* `Prep` — `ChoreographyHive/choreography/common/preparation.py`
  (the `LetAllCarsSpawn` readiness-gating step);
* `Aqua` — the `group_list` built by
  `ChoreographyHive/choreography/choreos/scripted_aqua.py`'s
  `ScriptedAqua.generate_sequence` (the drone-index subsets of each
  sub-group choreography);
* `Hive` — `HiveExampleBot/hivemind.py` (the per-tick drone
  pre-processing of `ExampleHivemind.game_loop` and the `normalise`
  vector helper);
* `SpecModel` — the Timeline / Orchestrator advancement engine
  (`choreography.py` / `group_step.py`), whose source is not part of
  this snapshot and is therefore modelled from the specification.

Times and game scalars from the Python floats are modelled as `ℚ` where
the code is arithmetic/comparison only, and as `ℝ` where square roots
and trigonometry appear (`hivemind.py`).
-/

namespace Prep

/-- `packet.game_info`: the scalar fields `LetAllCarsSpawn.perform` reads. -/
structure GameInfo where
  seconds_elapsed : ℚ
  is_round_active : Bool
  deriving Repr, DecidableEq

/-- The game tick packet, restricted to the fields `preparation.py` uses. -/
structure GameTickPacket where
  game_info : GameInfo
  deriving Repr, DecidableEq

/-- A drone as `preparation.py` sees it: only its stable `index` is read. -/
structure Drone where
  index : ℕ
  deriving Repr, DecidableEq

/-- `rlbot.utils.game_state_util.Vector3`. -/
structure Vector3 where
  x : ℚ
  y : ℚ
  z : ℚ
  deriving Repr, DecidableEq

/-- `rlbot.utils.game_state_util.Rotator`. -/
structure Rotator where
  pitch : ℚ
  yaw : ℚ
  roll : ℚ
  deriving Repr, DecidableEq

/-- `rlbot.utils.game_state_util.Physics`, restricted to the fields set by
`LetAllCarsSpawn.perform`. -/
structure Physics where
  location : Vector3
  velocity : Vector3
  rotation : Rotator
  deriving Repr, DecidableEq

/-- `rlbot.utils.game_state_util.CarState` as built by `perform`. -/
structure CarState where
  physics : Physics
  deriving Repr, DecidableEq

/-- `GameState(cars=car_states)`: the dict of car states keyed by drone
index, modelled as an association list. -/
structure GameState where
  cars : List (ℕ × CarState)
  deriving Repr, DecidableEq

/-- `StepResult` from `choreography/group_step.py`: a single finished flag. -/
structure StepResult where
  finished : Bool
  deriving Repr, DecidableEq

/-- The mutable state of a `LetAllCarsSpawn` step: the constructor
argument `expected_num` (a Python float) and the `start_time` attribute,
`None` until first assigned. -/
structure LetAllCarsSpawn where
  expected_num : ℚ
  start_time : Option ℚ
  deriving Repr, DecidableEq

/-- `LetAllCarsSpawn(game_interface, expected_num)`: `start_time = None`. -/
def LetAllCarsSpawn.init (expected_num : ℚ) : LetAllCarsSpawn :=
  { expected_num := expected_num, start_time := none }

/-- Python truthiness of the `start_time` attribute: `not self.start_time`
is `True` when the attribute is `None` and also when it is `0.0`. -/
def pyFalsy : Option ℚ → Bool
  | none => true
  | some x => x == 0

/-- The start time `perform` measures from on a given call: the stored
`start_time` unless that is falsy, in which case the packet's
`seconds_elapsed` is recorded in its place (first two lines of `perform`). -/
def recordedStart (s : LetAllCarsSpawn) (packet : GameTickPacket) : ℚ :=
  if pyFalsy s.start_time then packet.game_info.seconds_elapsed
  else s.start_time.getD 0

/-- The `CarState` `perform` builds for a drone of the given index:
`location = (start_x, start_y + index * y_increment, start_z)` with
`start_x = -2000`, `y_increment = 100`, `start_y = -4000`, `start_z = 40`,
zero velocity and zero rotation. -/
def spawnCarState (index : ℕ) : CarState :=
  { physics :=
    { location := { x := -2000, y := -4000 + index * 100, z := 40 }
      velocity := { x := 0, y := 0, z := 0 }
      rotation := { pitch := 0, yaw := 0, roll := 0 } } }

/-- `LetAllCarsSpawn.perform(packet, drones)`.  Returns the updated step
state, the `GameState` written through `set_game_state`, and the
`StepResult`.  The finished flag mirrors the Python expression
`len(drones) >= self.expected_num and active or elapsed > 30`, which by
precedence is `(len(drones) >= expected_num and active) or (elapsed > 30)`. -/
def LetAllCarsSpawn.perform (s : LetAllCarsSpawn) (packet : GameTickPacket)
    (drones : List Drone) : LetAllCarsSpawn × GameState × StepResult :=
  let st := recordedStart s packet
  let elapsed := packet.game_info.seconds_elapsed - st
  let car_states := drones.map (fun d => (d.index, spawnCarState d.index))
  let active := packet.game_info.is_round_active
  ({ s with start_time := some st },
   { cars := car_states },
   { finished :=
      (decide ((drones.length : ℚ) ≥ s.expected_num) && active)
        || decide (elapsed > 30) })

/-- Repeated calls to `perform`, one per tick, threading the step state. -/
def LetAllCarsSpawn.performRun (s : LetAllCarsSpawn)
    (calls : List (GameTickPacket × List Drone)) : LetAllCarsSpawn :=
  calls.foldl (fun st c => (st.perform c.1 c.2).1) s

theorem perform_start_time (s : LetAllCarsSpawn) (packet : GameTickPacket)
    (drones : List Drone) :
    (s.perform packet drones).1.start_time = some (recordedStart s packet) := rfl

theorem perform_expected (s : LetAllCarsSpawn) (packet : GameTickPacket)
    (drones : List Drone) :
    (s.perform packet drones).1.expected_num = s.expected_num := rfl

theorem recordedStart_of_not_falsy (s : LetAllCarsSpawn)
    (packet : GameTickPacket) (h : pyFalsy s.start_time = false) :
    some (recordedStart s packet) = s.start_time := by
  unfold recordedStart
  rw [h]
  cases hs : s.start_time with
  | none => rw [hs] at h; simp [pyFalsy] at h
  | some x => simp

theorem performRun_start_time_fixed (calls : List (GameTickPacket × List Drone))
    (t : ℚ) (ht : t ≠ 0) :
    ∀ s : LetAllCarsSpawn, s.start_time = some t →
      (LetAllCarsSpawn.performRun s calls).start_time = some t := by
  induction calls with
  | nil => intro s hs; exact hs
  | cons c cs ih =>
      intro s hs
      have hfal : pyFalsy s.start_time = false := by
        rw [hs]; simp [pyFalsy, ht]
      have hstep : (s.perform c.1 c.2).1.start_time = some t := by
        rw [perform_start_time, recordedStart_of_not_falsy s c.1 hfal, hs]
      exact ih _ hstep

theorem perform_finished_char (s : LetAllCarsSpawn) (packet : GameTickPacket)
    (drones : List Drone) :
    (s.perform packet drones).2.2.finished = true ↔
      (((drones.length : ℚ) ≥ s.expected_num ∧
          packet.game_info.is_round_active = true) ∨
        packet.game_info.seconds_elapsed - recordedStart s packet > 30) := by
  simp [LetAllCarsSpawn.perform]

/-- C3: `LetAllCarsSpawn.perform` reports finished exactly when the
expected agent population has been observed or the maximum wait has
elapsed: the returned `StepResult` has `finished = true` iff (the number
of drones passed in is at least `expected_num` and the packet reports the
round active) or more than 30 seconds have elapsed since the recorded
start time. -/
theorem perform_finished_iff (s : LetAllCarsSpawn) (packet : GameTickPacket)
    (drones : List Drone) :
    (s.perform packet drones).2.2.finished = true ↔
      (((drones.length : ℚ) ≥ s.expected_num ∧
          packet.game_info.is_round_active = true) ∨
        packet.game_info.seconds_elapsed - recordedStart s packet > 30) :=
  perform_finished_char s packet drones

/-- C1 counterexample: a `LetAllCarsSpawn` gate expecting 4 drones, called
with only 3 drones present after 31 seconds of waiting, reports
`finished = true` — the Python `StepResult` has no distinguished timeout
outcome, so the sequence advances past the gate and the following steps do
run, contrary to the claim that the gate must not report finished there. -/
theorem timeout_reports_finished_cex :
    (([⟨0⟩, ⟨1⟩, ⟨2⟩] : List Drone).length : ℚ) <
        (LetAllCarsSpawn.mk 4 (some 5)).expected_num ∧
      (⟨⟨36, true⟩⟩ : GameTickPacket).game_info.seconds_elapsed -
        recordedStart (LetAllCarsSpawn.mk 4 (some 5)) ⟨⟨36, true⟩⟩ > 30 ∧
      ((LetAllCarsSpawn.mk 4 (some 5)).perform ⟨⟨36, true⟩⟩
          [⟨0⟩, ⟨1⟩, ⟨2⟩]).2.2.finished = true := by
  refine ⟨by norm_num, by norm_num [recordedStart, pyFalsy], ?_⟩
  rw [perform_finished_char]
  exact Or.inr (by norm_num [recordedStart, pyFalsy])

/-- C1 amended: once more than 30 seconds have elapsed since the recorded
start time, `LetAllCarsSpawn.perform` reports `finished = true` regardless
of how many drones are present, so the Driver proceeds (degraded) to the
following steps of the sequence; there is no distinguished timeout
outcome. -/
theorem perform_timeout_finishes (s : LetAllCarsSpawn)
    (packet : GameTickPacket) (drones : List Drone)
    (h : packet.game_info.seconds_elapsed - recordedStart s packet > 30) :
    (s.perform packet drones).2.2.finished = true := by
  exact (perform_finished_char s packet drones).mpr (Or.inr h)

/-- C1 amended, witness: the gate of the counterexample above has 31
seconds elapsed, and the amended theorem applies to it. -/
theorem perform_timeout_finishes_witness :
    ((LetAllCarsSpawn.mk 4 (some 5)).perform ⟨⟨36, true⟩⟩
        [⟨0⟩, ⟨1⟩, ⟨2⟩]).2.2.finished = true :=
  perform_timeout_finishes (LetAllCarsSpawn.mk 4 (some 5)) ⟨⟨36, true⟩⟩
    [⟨0⟩, ⟨1⟩, ⟨2⟩] (by norm_num [recordedStart, pyFalsy])

/-- C8: the `GameState` that `LetAllCarsSpawn.perform` writes through
`set_game_state` depends only on the list of drones — not on the packet,
the elapsed time, or any state accumulated by prior calls — so the write
is idempotent and tick-repeatable: repeating it on consecutive ticks
produces the identical `GameState` every time, and each drone's `CarState`
is `spawnCarState` of that drone's index alone. -/
theorem perform_gameState_tick_repeatable (s s' : LetAllCarsSpawn)
    (packet packet' : GameTickPacket) (drones : List Drone) :
    (s.perform packet drones).2.1 = (s'.perform packet' drones).2.1 ∧
      (s.perform packet drones).2.1.cars =
        drones.map (fun d => (d.index, spawnCarState d.index)) :=
  ⟨rfl, rfl⟩

/-- C10: provided the first packet's `seconds_elapsed` is nonzero,
`start_time` is assigned that timestamp on the first call and never
reassigned by later calls, so elapsed time is always measured from the
first invocation; and (second conjunct) without that precondition the
falsiness check treats a recorded `0.0` as unset, so a first call at time
`0` is followed by a reassignment on the next call (here to time `7`). -/
theorem start_time_assigned_once (e : ℚ) (p : GameTickPacket)
    (ds : List Drone) (calls : List (GameTickPacket × List Drone))
    (h : p.game_info.seconds_elapsed ≠ 0) :
    (LetAllCarsSpawn.performRun
        (((LetAllCarsSpawn.init e).perform p ds).1) calls).start_time =
      some p.game_info.seconds_elapsed ∧
      (((LetAllCarsSpawn.init 64).perform ⟨⟨0, true⟩⟩ []).1.perform
          ⟨⟨7, true⟩⟩ []).1.start_time = some 7 := by
  constructor
  · have hfirst : (((LetAllCarsSpawn.init e).perform p ds).1).start_time =
        some p.game_info.seconds_elapsed := by
      rw [perform_start_time]
      simp [recordedStart, LetAllCarsSpawn.init, pyFalsy]
    exact performRun_start_time_fixed calls _ h _ hfirst
  · norm_num [LetAllCarsSpawn.perform, LetAllCarsSpawn.init, recordedStart,
      pyFalsy]

/-- C10 witness: a first call at time 5 (nonzero), followed by a later
call at time 9, leaves `start_time = 5`. -/
theorem start_time_assigned_once_witness :
    (LetAllCarsSpawn.performRun
        (((LetAllCarsSpawn.init 64).perform ⟨⟨5, true⟩⟩ []).1)
        [(⟨⟨9, true⟩⟩, [])]).start_time = some 5 ∧
      (((LetAllCarsSpawn.init 64).perform ⟨⟨0, true⟩⟩ []).1.perform
          ⟨⟨7, true⟩⟩ []).1.start_time = some 7 :=
  start_time_assigned_once 64 ⟨⟨5, true⟩⟩ [] [(⟨⟨9, true⟩⟩, [])] (by norm_num)

end Prep

namespace Aqua

/-!
The `group_list` of `ScriptedAqua.generate_sequence`.  `generate_sequence`
receives the roster `drones` (at least `get_num_bots() = 64` long, or the
orchestrator is not built) and hands each sub-group choreography a slice
of it.  Each group is modelled by the list of roster positions of the
drones it receives; two groups share a drone exactly when their position
lists intersect.
-/

/-- `CruisePose(..., drones=drones[:12], ...)`. -/
def cruisePoseGroup : List ℕ := List.range 12

/-- `CruiseFormation(..., drones=drones[:12], ...)`. -/
def cruiseFormationGroup : List ℕ := List.range 12

/-- `LineUpSoccerTunnel(drones=drones[12:48], ...)`. -/
def lineUpSoccerTunnelGroup : List ℕ := List.range' 12 36

/-- `FastFly(..., drones=[drones[12], drones[15], drones[18], drones[21]], ...)`. -/
def fastFlyGroup1 : List ℕ := [12, 15, 18, 21]

/-- `FastFly(..., drones=[drones[13], drones[16], drones[19], drones[22]], ...)`. -/
def fastFlyGroup2 : List ℕ := [13, 16, 19, 22]

/-- `FastFly(..., drones=[drones[14], drones[17], drones[20], drones[23]], ...)`. -/
def fastFlyGroup3 : List ℕ := [14, 17, 20, 23]

/-- `SoccerTunnelMember([drones[i + 12]], ...)` for `i in range(36)`. -/
def soccerTunnelMemberGroup (i : ℕ) : List ℕ := [i + 12]

/-- `FireworkSubChoreography(..., drones[n * drones_per_missile + 19 :
(n + 1) * drones_per_missile + 19], ...)` for `n in range(6)` with
`drones_per_missile = 6`. -/
def fireworkGroup (n : ℕ) : List ℕ := List.range' (n * 6 + 19) 6

/-- The `group_list` passed to `SubGroupOrchestrator`, in construction
order. -/
def groupList : List (List ℕ) :=
  [cruisePoseGroup, cruiseFormationGroup, lineUpSoccerTunnelGroup,
    fastFlyGroup1, fastFlyGroup2, fastFlyGroup3]
    ++ (List.range 36).map soccerTunnelMemberGroup
    ++ (List.range 6).map fireworkGroup

instance (l₁ l₂ : List ℕ) : Decidable (l₁.Disjoint l₂) :=
  decidable_of_iff (∀ a ∈ l₁, a ∉ l₂)
    (Iff.intro (fun h _ ha => h _ ha) (fun h _ ha => h ha))

/-- C2 counterexample: the sub-group drone sets of `group_list` are not
pairwise disjoint — already the first two entries, `CruisePose` and
`CruiseFormation`, are handed the same slice `drones[:12]`. -/
theorem groupList_not_pairwise_disjoint :
    ¬ List.Pairwise List.Disjoint groupList := by
  intro h
  have h01 : cruisePoseGroup.Disjoint cruiseFormationGroup :=
    (List.pairwise_cons.mp h).1 cruiseFormationGroup (by decide)
  exact h01 (show 0 ∈ cruisePoseGroup by decide) (by decide)

/-- C2 amended: `group_list` is not a partition — `CruisePose` and
`CruiseFormation` share `drones[:12]`, and the `FastFly` groups, the
`SoccerTunnelMember` singletons and the firework slices overlap each
other inside `drones[12:]`.  The disjointness that does hold by
construction: the cruise slice `drones[:12]` is disjoint from every group
drawn from `drones[12:]`, and each family (the three `FastFly` groups,
the 36 tunnel singletons, the six firework slices) is internally pairwise
disjoint. -/
theorem groupList_partial_disjoint :
    (∀ g ∈ lineUpSoccerTunnelGroup :: fastFlyGroup1 :: fastFlyGroup2 ::
        fastFlyGroup3 :: ((List.range 36).map soccerTunnelMemberGroup
          ++ (List.range 6).map fireworkGroup),
      cruisePoseGroup.Disjoint g ∧ cruiseFormationGroup.Disjoint g) ∧
      List.Pairwise List.Disjoint [fastFlyGroup1, fastFlyGroup2, fastFlyGroup3] ∧
      List.Pairwise List.Disjoint ((List.range 36).map soccerTunnelMemberGroup) ∧
      List.Pairwise List.Disjoint ((List.range 6).map fireworkGroup) := by
  refine ⟨?_, by decide, by decide, by decide⟩
  decide

/-- C2 amended, witness: the cruise slice is disjoint from the soccer
tunnel slice. -/
theorem groupList_partial_disjoint_witness :
    cruisePoseGroup.Disjoint lineUpSoccerTunnelGroup :=
  (groupList_partial_disjoint.1 lineUpSoccerTunnelGroup
    (List.mem_cons_self _ _)).1

end Aqua

namespace SpecModel

/-!
Modelled from the spec: the Timeline / Orchestrator advancement engine
(`choreography/choreography.py` and `choreography/group_step.py`) is not
part of this source snapshot — only its callers are — so it is modelled
from §4.2 and §4.4 of the specification.  A Step is abstracted by the
finished flag it reports when invoked at a given tick (`ℕ → Bool`); a
Sub-Timeline child of an Orchestrator is abstracted the same way (a
dormant child simply reports `false` until its start offset elapses).
-/

/-- Modelled from the spec: a Timeline is an ordered sequence of Steps
plus a cursor, the index of the current Step (§3, §4.2). -/
structure Timeline where
  sequence : List (ℕ → Bool)
  cursor : ℕ := 0

/-- Modelled from the spec: Timeline advancement (§4.2).  If the cursor is
past the end, report finished without invoking anything.  Otherwise invoke
the current Step; if it reports finished, increment the cursor, deferring
the invocation of the new current Step to the next tick, and report
finished exactly when the cursor has just passed the final element.
Returns (new timeline, finished flag, index of the Step invoked). -/
def Timeline.advance (tl : Timeline) (t : ℕ) : Timeline × Bool × Option ℕ :=
  if h : tl.sequence.length ≤ tl.cursor then
    (tl, true, none)
  else
    if tl.sequence.get ⟨tl.cursor, Nat.lt_of_not_le h⟩ t then
      ({ tl with cursor := tl.cursor + 1 },
        decide (tl.sequence.length ≤ tl.cursor + 1), some tl.cursor)
    else
      (tl, false, some tl.cursor)

/-- The cursor positions seen across a sequence of `advance` calls: the
initial cursor followed by the cursor after each tick. -/
def Timeline.cursorTrace (tl : Timeline) : List ℕ → List ℕ
  | [] => [tl.cursor]
  | t :: ts => tl.cursor :: Timeline.cursorTrace (tl.advance t).1 ts

theorem advance_sequence (tl : Timeline) (t : ℕ) :
    (tl.advance t).1.sequence = tl.sequence := by
  unfold Timeline.advance
  split
  · rfl
  · split <;> rfl

theorem advance_cursor_cases (tl : Timeline) (t : ℕ) :
    (tl.advance t).1.cursor = tl.cursor ∨
      ((tl.advance t).1.cursor = tl.cursor + 1 ∧
        tl.cursor < tl.sequence.length) := by
  unfold Timeline.advance
  split
  · exact Or.inl rfl
  · rename_i h
    split
    · exact Or.inr ⟨rfl, Nat.lt_of_not_le h⟩
    · exact Or.inl rfl

theorem advance_cursor_mono (tl : Timeline) (t : ℕ) :
    tl.cursor ≤ (tl.advance t).1.cursor := by
  rcases advance_cursor_cases tl t with h | ⟨h, _⟩ <;> omega

theorem advance_cursor_bound (tl : Timeline) (t : ℕ)
    (h : tl.cursor ≤ tl.sequence.length) :
    (tl.advance t).1.cursor ≤ tl.sequence.length := by
  rcases advance_cursor_cases tl t with h' | ⟨h', hlt⟩ <;> omega

theorem cursorTrace_head (tl : Timeline) (ts : List ℕ) :
    (tl.cursorTrace ts).head? = some tl.cursor := by
  cases ts <;> rfl

/-- C6: for every Timeline whose cursor is within its step sequence (as
every freshly built Timeline is, starting at 0) and every sequence of
`advance` calls, the cursor is monotonically non-decreasing from one tick
to the next and never exceeds the length of the step sequence. -/
theorem cursor_forward_bounded (tl : Timeline) (ts : List ℕ)
    (h : tl.cursor ≤ tl.sequence.length) :
    List.Chain' (fun a b => a ≤ b) (tl.cursorTrace ts) ∧
      ∀ c ∈ tl.cursorTrace ts, c ≤ tl.sequence.length := by
  induction ts generalizing tl with
  | nil =>
      refine ⟨List.chain'_singleton _, ?_⟩
      intro c hc
      simp only [Timeline.cursorTrace, List.mem_singleton] at hc
      omega
  | cons t ts ih =>
      have hseq := advance_sequence tl t
      have hbound := advance_cursor_bound tl t h
      have ih' := ih (tl.advance t).1 (by rw [hseq]; exact hbound)
      refine ⟨?_, ?_⟩
      · rw [Timeline.cursorTrace, List.chain'_cons']
        refine ⟨?_, ih'.1⟩
        intro b hb
        rw [cursorTrace_head] at hb
        rw [Option.mem_def, Option.some_inj] at hb
        rw [← hb] at *
        exact advance_cursor_mono tl t
      · intro c hc
        rw [Timeline.cursorTrace, List.mem_cons] at hc
        rcases hc with rfl | hc
        · exact h
        · have := ih'.2 c hc
          rwa [hseq] at this

/-- C6 witness: a one-step timeline advanced over three ticks. -/
theorem cursor_forward_bounded_witness :
    List.Chain' (fun a b => a ≤ b)
        (Timeline.cursorTrace { sequence := [fun _ => true] } [1, 2, 3]) ∧
      ∀ c ∈ Timeline.cursorTrace { sequence := [fun _ => true] } [1, 2, 3],
        c ≤ (Timeline.mk [fun _ => true] 0).sequence.length :=
  cursor_forward_bounded { sequence := [fun _ => true] } [1, 2, 3]
    (Nat.zero_le _)

/-- Step A of the C7 scenario: a Combined step that reports finished on
tick 3, its third invocation. -/
def stepA : ℕ → Bool := fun t => decide (3 ≤ t)

/-- Step B of the C7 scenario: a Combined step that finishes immediately. -/
def stepB : ℕ → Bool := fun _ => true

/-- The C7 scenario timeline `[Step A, Step B]`. -/
def scenarioTimeline : Timeline := { sequence := [stepA, stepB] }

/-- The scenario after tick 1. -/
def scenarioRun1 : Timeline × Bool × Option ℕ := scenarioTimeline.advance 1

/-- The scenario after tick 2. -/
def scenarioRun2 : Timeline × Bool × Option ℕ := scenarioRun1.1.advance 2

/-- The scenario after tick 3. -/
def scenarioRun3 : Timeline × Bool × Option ℕ := scenarioRun2.1.advance 3

/-- The scenario after tick 4. -/
def scenarioRun4 : Timeline × Bool × Option ℕ := scenarioRun3.1.advance 4

/-- The scenario after tick 5. -/
def scenarioRun5 : Timeline × Bool × Option ℕ := scenarioRun4.1.advance 5

/-- C7: for the sequence [Step A (finishes after exactly 3 ticks), Step B
(finishes immediately)], the cursor is 0 after ticks 1 and 2, advances to
1 on tick 3 while invoking only Step A (Step B's invocation is deferred to
the next tick), advances to 2 (past the end) on tick 4, and the Timeline
reports finished from tick 4 on. -/
theorem scenario_defers_to_next_tick :
    scenarioRun1.1.cursor = 0 ∧ scenarioRun1.2.1 = false ∧
      scenarioRun1.2.2 = some 0 ∧
      scenarioRun2.1.cursor = 0 ∧ scenarioRun2.2.1 = false ∧
      scenarioRun2.2.2 = some 0 ∧
      scenarioRun3.1.cursor = 1 ∧ scenarioRun3.2.1 = false ∧
      scenarioRun3.2.2 = some 0 ∧
      scenarioRun4.1.cursor = 2 ∧ scenarioRun4.2.1 = true ∧
      scenarioRun4.2.2 = some 1 ∧
      scenarioRun5.2.1 = true := by
  decide

/-- Modelled from the spec: one Orchestrator tick over the per-child
finished flags (§4.4).  A child whose flag is already set is remembered as
finished and skipped; every other child is invoked and its report
recorded. -/
def orchFlagsStep : List (ℕ → Bool) → List Bool → ℕ → List Bool
  | [], _, _ => []
  | _ :: _, [], _ => []
  | c :: cs, b :: bs, t => (if b then true else c t) :: orchFlagsStep cs bs t

/-- Modelled from the spec: the children the Orchestrator would invoke on
a tick entered with the given flags — exactly those not yet finished. -/
def orchInvoked (flags : List Bool) : List ℕ :=
  (List.range flags.length).filter (fun i => !flags.getD i true)

/-- Modelled from the spec: Orchestrator-level finished = AND over all
children's finished flags (§4.4). -/
def orchFinished (flags : List Bool) : Bool := flags.all (fun b => b)

/-- Modelled from the spec: running the Orchestrator over a sequence of
ticks, threading the finished flags. -/
def orchRun (children : List (ℕ → Bool)) (flags : List Bool)
    (ts : List ℕ) : List Bool :=
  ts.foldl (orchFlagsStep children) flags

/-- Modelled from the spec: the initial flags — no child has finished. -/
def orchStart (children : List (ℕ → Bool)) : List Bool :=
  List.replicate children.length false

theorem orchFlagsStep_eq_zipWith (t : ℕ) :
    ∀ (cs : List (ℕ → Bool)) (bs : List Bool),
      orchFlagsStep cs bs t = List.zipWith (fun c b => b || c t) cs bs := by
  intro cs
  induction cs with
  | nil => intro bs; rfl
  | cons c cs ih =>
      intro bs
      cases bs with
      | nil => rfl
      | cons b bs =>
          cases b <;> simp [orchFlagsStep, ih]

theorem zipWith_self_comp {α β γ δ : Type} (f : α → γ → δ) (g : α → β → γ) :
    ∀ (cs : List α) (bs : List β),
      List.zipWith f cs (List.zipWith g cs bs) =
        List.zipWith (fun c b => f c (g c b)) cs bs := by
  intro cs
  induction cs with
  | nil => intro bs; rfl
  | cons c cs ih =>
      intro bs
      cases bs with
      | nil => rfl
      | cons b bs => simp [ih]

theorem zipWith_proj_right {α β : Type} :
    ∀ (cs : List α) (bs : List β), bs.length = cs.length →
      List.zipWith (fun _ b => b) cs bs = bs := by
  intro cs
  induction cs with
  | nil => intro bs h; rw [List.length_eq_zero.mp h]; rfl
  | cons c cs ih =>
      intro bs h
      cases bs with
      | nil => simp at h
      | cons b bs =>
          simp only [List.zipWith_cons_cons]
          rw [ih bs (by simpa using h)]

theorem orchRun_eq_zipWith (cs : List (ℕ → Bool)) (ts : List ℕ) :
    ∀ bs : List Bool, bs.length = cs.length →
      orchRun cs bs ts = List.zipWith (fun c b => b || ts.any c) cs bs := by
  induction ts with
  | nil =>
      intro bs h
      show bs = _
      simp only [List.any_nil, Bool.or_false]
      exact (zipWith_proj_right cs bs h).symm
  | cons t ts ih =>
      intro bs h
      show orchRun cs (orchFlagsStep cs bs t) ts = _
      have hlen : (orchFlagsStep cs bs t).length = cs.length := by
        rw [orchFlagsStep_eq_zipWith, List.length_zipWith, h]
        omega
      rw [ih _ hlen, orchFlagsStep_eq_zipWith, zipWith_self_comp]
      have hfun : (fun (c : ℕ → Bool) (b : Bool) => (b || c t) || ts.any c) =
          (fun (c : ℕ → Bool) (b : Bool) => b || (t :: ts).any c) := by
        funext c b
        rw [List.any_cons, Bool.or_assoc]
      rw [hfun]

theorem zipWith_replicate_false {α : Type} (f : α → Bool → Bool) :
    ∀ cs : List α,
      List.zipWith f cs (List.replicate cs.length false) =
        cs.map (fun c => f c false) := by
  intro cs
  induction cs with
  | nil => rfl
  | cons c cs ih => simp [List.replicate_succ, ih]

theorem orchRun_start (cs : List (ℕ → Bool)) (ts : List ℕ) :
    orchRun cs (orchStart cs) ts = cs.map (fun c => ts.any c) := by
  rw [orchStart, orchRun_eq_zipWith cs ts _ (List.length_replicate _ _),
    zipWith_replicate_false]
  simp

/-- C5: for every Orchestrator run from its start state over any tick
sequence, (1) the Orchestrator's finished flag is true iff every child has
reported finished when invoked at that or some prior tick; (2) once the
flag is true it remains true across any further ticks; and (3) a child
whose finished flag is set is never among the children invoked on any
subsequent tick. -/
theorem orchestrator_finished_props (children : List (ℕ → Bool))
    (ts more : List ℕ) (i : ℕ) :
    (orchFinished (orchRun children (orchStart children) ts) = true ↔
        ∀ c ∈ children, ts.any c = true) ∧
      (orchFinished (orchRun children (orchStart children) ts) = true →
        orchFinished (orchRun children (orchStart children) (ts ++ more)) =
          true) ∧
      ((orchRun children (orchStart children) ts).getD i false = true →
        i ∉ orchInvoked (orchRun children (orchStart children) (ts ++ more))) := by
  have hchar : orchFinished (orchRun children (orchStart children) ts) =
      true ↔ ∀ c ∈ children, ts.any c = true := by
    rw [orchRun_start, orchFinished]
    simp [List.all_eq_true]
  refine ⟨hchar, ?_, ?_⟩
  · intro h
    rw [orchRun_start, orchFinished]
    have h' := hchar.mp h
    simp only [List.all_eq_true, List.mem_map]
    rintro b ⟨c, hc, rfl⟩
    rw [List.any_append, h' c hc, Bool.true_or]
  · intro h
    rw [orchRun_start] at h
    rw [orchRun_start, orchInvoked]
    intro hmem
    rw [List.mem_filter] at hmem
    obtain ⟨hrange, hflag⟩ := hmem
    rw [List.mem_range, List.length_map] at hrange
    have hget : (children.map (fun c => ts.any c)).getD i false =
        ts.any (children.get ⟨i, hrange⟩) := by
      rw [List.getD_eq_getElem?_getD, List.getElem?_map,
        List.getElem?_eq_getElem hrange]
      rfl
    rw [hget] at h
    have hget2 : (children.map (fun c => (ts ++ more).any c)).getD i true =
        (ts ++ more).any (children.get ⟨i, hrange⟩) := by
      rw [List.getD_eq_getElem?_getD, List.getElem?_map,
        List.getElem?_eq_getElem hrange]
      rfl
    rw [hget2, List.any_append, h, Bool.true_or] at hflag
    simp at hflag

/-- C5 witness: one child that reports finished on tick 1; after running
tick 1 the Orchestrator is finished. -/
theorem orchestrator_finished_props_witness :
    orchFinished (orchRun [fun t => decide (t = 1)]
        (orchStart [fun t => decide (t = 1)]) [1]) = true :=
  (orchestrator_finished_props [fun t => decide (t = 1)] [1] [] 0).1.mpr
    (by decide)

end SpecModel

namespace Hive

noncomputable section

/-- A 3-component numpy vector, as produced by `a3v` (`hivemind.py`
models vectors as `np.array([V.x, V.y, V.z])`). -/
structure Vec3 where
  x : ℝ
  y : ℝ
  z : ℝ

/-- A rotation triple, as produced by `a3r`
(`np.array([R.pitch, R.yaw, R.roll])`). -/
structure Rot3 where
  pitch : ℝ
  yaw : ℝ
  roll : ℝ

/-- `rlbot.utils.structures.bot_input_struct.PlayerInput`: a ctypes
struct whose fields are zero-initialised, so `PlayerInput()` is the
neutral no-op action. -/
structure PlayerInput where
  throttle : ℝ := 0
  steer : ℝ := 0
  pitch : ℝ := 0
  yaw : ℝ := 0
  roll : ℝ := 0
  jump : Bool := false
  boost : Bool := false
  handbrake : Bool := false

/-- `PlayerInput()`. -/
def PlayerInput.init : PlayerInput := {}

/-- `orient_matrix(R)` from `hivemind.py`: Euler angles to an orientation
matrix, row `i` and column `j` of the numpy array `A`. -/
def orient_matrix (r : Rot3) : Fin 3 → Fin 3 → ℝ :=
  let CR := Real.cos r.roll
  let SR := Real.sin r.roll
  let CP := Real.cos r.pitch
  let SP := Real.sin r.pitch
  let CY := Real.cos r.yaw
  let SY := Real.sin r.yaw
  ![![CP * CY, CY * SP * SR - CR * SY, -CR * CY * SP - SR * SY],
    ![CP * SY, SY * SP * SR + CR * CY, -CR * SY * SP + SR * CY],
    ![SP, -CP * SR, CP * CR]]

/-- The physics block of one entry of `packet.game_cars`. -/
structure CarPhysics where
  location : Vec3
  rotation : Rot3
  velocity : Vec3

/-- One entry of `packet.game_cars`: the fields the drone-processing loop
reads. -/
structure GameCar where
  physics : CarPhysics
  boost : ℝ

/-- The game tick packet as read by the drone-processing loop:
`game_cars` indexed by the drone's stable index. -/
structure HivePacket where
  game_cars : ℕ → GameCar

/-- The `Drone` class of `hivemind.py`. -/
structure Drone where
  index : ℕ
  team : ℕ
  pos : Vec3
  rot : Rot3
  vel : Vec3
  boost : ℝ
  orient_m : Fin 3 → Fin 3 → ℝ
  ctrl : PlayerInput
  forward : Bool
  going : Bool

/-- `Drone.__init__(index, team)`: zero pose, identity orientation,
default controls. -/
def Drone.init (index team : ℕ) : Drone :=
  { index := index
    team := team
    pos := ⟨0, 0, 0⟩
    rot := ⟨0, 0, 0⟩
    vel := ⟨0, 0, 0⟩
    boost := 0
    orient_m := fun i j => if i = j then 1 else 0
    ctrl := PlayerInput.init
    forward := true
    going := false }

/-- The body of the per-drone pre-processing loop of
`ExampleHivemind.game_loop` (lines 127–137): refresh `pos`, `rot`, `vel`
and `boost` from the packet, recompute `orient_m` from the fresh
rotation, and reset `ctrl` to a fresh `PlayerInput()`. -/
def processDrone (packet : HivePacket) (d : Drone) : Drone :=
  let car := packet.game_cars d.index
  { d with
    pos := car.physics.location
    rot := car.physics.rotation
    vel := car.physics.velocity
    boost := car.boost
    orient_m := orient_matrix car.physics.rotation
    ctrl := PlayerInput.init }

/-- The whole `for drone in self.drones:` pre-processing loop, applied to
the drone list. -/
def processDrones (packet : HivePacket) (drones : List Drone) : List Drone :=
  drones.map (processDrone packet)

/-- C4: on every tick, after the snapshot refresh and before any
step/behavior logic runs, every drone's output action is reset to the
neutral default — each drone coming out of the pre-processing loop has
`ctrl = PlayerInput()`, so a drone not written by any active behavior
that tick sends a no-op action rather than the previous tick's
controls. -/
theorem ctrl_reset_each_tick (packet : HivePacket) (drones : List Drone) :
    ∀ d ∈ processDrones packet drones, d.ctrl = PlayerInput.init := by
  intro d hd
  rw [processDrones, List.mem_map] at hd
  obtain ⟨d₀, _, rfl⟩ := hd
  rfl

/-- A concrete all-zero car entry. -/
def sampleCar : GameCar :=
  { physics :=
      { location := ⟨0, 0, 0⟩, rotation := ⟨0, 0, 0⟩, velocity := ⟨0, 0, 0⟩ }
    boost := 0 }

/-- A concrete packet whose every car entry is `sampleCar`. -/
def samplePacket : HivePacket := ⟨fun _ => sampleCar⟩

/-- C4 witness: the freshly initialised drone 0, processed against the
sample packet, carries default controls. -/
theorem ctrl_reset_each_tick_witness :
    (processDrone samplePacket (Drone.init 0 0)).ctrl = PlayerInput.init :=
  ctrl_reset_each_tick samplePacket [Drone.init 0 0]
    (processDrone samplePacket (Drone.init 0 0))
    (List.mem_map.mpr ⟨Drone.init 0 0, List.mem_singleton_self _, rfl⟩)

/-- `np.linalg.norm(V)` for a 3-vector: the Euclidean magnitude. -/
def npNorm (v : Vec3) : ℝ := Real.sqrt (v.x ^ 2 + v.y ^ 2 + v.z ^ 2)

/-- `normalise(V)` from `hivemind.py`: divide by the magnitude when it is
nonzero, otherwise return `V` unchanged. -/
def normalise (v : Vec3) : Vec3 :=
  let magnitude := npNorm v
  if magnitude ≠ 0 then
    { x := v.x / magnitude, y := v.y / magnitude, z := v.z / magnitude }
  else v

/-- C9: `normalise` is total and never divides by zero — when the
magnitude is nonzero it returns `V` divided by its magnitude, when the
magnitude is zero it returns `V` unchanged, and in that case `V` is
necessarily the zero vector, so the division branch is unreachable at
zero magnitude. -/
theorem normalise_total (v : Vec3) :
    (npNorm v ≠ 0 →
        normalise v =
          { x := v.x / npNorm v, y := v.y / npNorm v, z := v.z / npNorm v }) ∧
      (npNorm v = 0 → normalise v = v) ∧
      (npNorm v = 0 → v = ⟨0, 0, 0⟩) := by
  refine ⟨fun h => by simp [normalise, h], fun h => by simp [normalise, h], ?_⟩
  intro h
  rw [npNorm] at h
  have hnn : (0 : ℝ) ≤ v.x ^ 2 + v.y ^ 2 + v.z ^ 2 := by positivity
  have hsum : v.x ^ 2 + v.y ^ 2 + v.z ^ 2 = 0 := (Real.sqrt_eq_zero hnn).mp h
  have hx : v.x = 0 := by
    have h2 : v.x ^ 2 = 0 := by nlinarith [sq_nonneg v.y, sq_nonneg v.z]
    exact pow_eq_zero_iff (by norm_num) |>.mp h2
  have hy : v.y = 0 := by
    have h2 : v.y ^ 2 = 0 := by nlinarith [sq_nonneg v.x, sq_nonneg v.z]
    exact pow_eq_zero_iff (by norm_num) |>.mp h2
  have hz : v.z = 0 := by
    have h2 : v.z ^ 2 = 0 := by nlinarith [sq_nonneg v.x, sq_nonneg v.y]
    exact pow_eq_zero_iff (by norm_num) |>.mp h2
  obtain ⟨x, y, z⟩ := v
  simp only at hx hy hz
  rw [hx, hy, hz]

/-- C9 witness: on the zero vector the magnitude is zero and `normalise`
returns it unchanged. -/
theorem normalise_total_witness : normalise ⟨0, 0, 0⟩ = ⟨0, 0, 0⟩ :=
  (normalise_total ⟨0, 0, 0⟩).2.1 (by simp [npNorm])

end

end Hive
